import Mathlib

/-!
Shallow embedding of the detection/correlation core of the IDS-with-SIEM
repository, together with theorems settling the frozen claims about it.

Conventions of the embedding:
* Python float timestamps (`time.time()`, `datetime.timestamp()`) are modelled
  as rationals `ℚ`; the detectors and the correlator only compare and subtract
  timestamps, so the structure of every branch is preserved exactly.
* Python optional / possibly-missing string fields are `Option String`;
  Python truthiness (`if not x`) of such a field is `truthyStr`.
* Detectors are pure state transformers: the module-level mutable containers
  (`_WINDOW`, `_LAST_ALERT`, `_TS`) become explicit state arguments and
  results, and `emit_event` calls become an `Option` detection result.
* Python `dict` (insertion ordered) is an association list; `dict.get` with a
  default is `dictGetD`, `d[k] = v` is `dictInsert`, `defaultdict(list)`
  appending is `dictAppend`.
* `sorted` / `list.sort` is `List.insertionSort (· ≤ ·)` (ascending, stable).
-/

namespace IdsIps

/-- Python truthiness of an optional string field: `None` and `""` are falsy. -/
def truthyStr : Option String → Bool
  | none => false
  | some s => decide (s ≠ "")

/-- Models the Python idiom `str(x) if x else ""` for an optional string
(also used for a field already known to be present, where `str(x)` is the
string itself). -/
def strOrEmpty : Option String → String
  | none => ""
  | some s => s

/-- First-match lookup with default, modelling Python `dict.get(k, dflt)`. -/
def dictGetD {K V : Type} [DecidableEq K] (k : K) (dflt : V) : List (K × V) → V
  | [] => dflt
  | (k', v) :: rest => if k' = k then v else dictGetD k dflt rest

/-- Update-or-append, modelling Python `d[k] = v` on an insertion-ordered
dict represented as an association list. -/
def dictInsert {K V : Type} [DecidableEq K] (k : K) (v : V) : List (K × V) → List (K × V)
  | [] => [(k, v)]
  | (k', v') :: rest => if k' = k then (k, v) :: rest else (k', v') :: dictInsert k v rest

/-- First-match lookup, modelling Python `d[k]` guarded by `k in d`. -/
def dictFind {K V : Type} [DecidableEq K] (k : K) : List (K × V) → Option V
  | [] => none
  | (k', v) :: rest => if k' = k then some v else dictFind k rest

/-! ## ICMP rate detector (src/idsips/detectors/icmp.py) -/

/-- One detection record as written by `emit_event` from `detect_icmp`. -/
structure IcmpDetection where
  src : String
  dst : String
  proto : String
  ruleId : String
  severity : String
  summary : String
  rate : ℕ
  threshold : ℤ
deriving DecidableEq, Repr

/-- The module-level mutable state of `icmp.py`: the rolling `_WINDOW` deque
of `(timestamp, src)` pairs and the `_LAST_ALERT` cooldown dict. -/
structure IcmpState where
  window : List (ℚ × Option String)
  lastAlert : List (Option String × ℚ)
deriving DecidableEq, Repr

/-- Embedding of `detect_icmp(cfg, pkt, src, dst)`.  `icmp_per_sec` is
`int(cfg["thresholds"]["icmp_per_sec"])`, `now` is `time.time()`,
`hasIcmpLayer` is `hasattr(pkt, "icmp")`. -/
def detect_icmp (icmp_per_sec : ℤ) (now : ℚ) (hasIcmpLayer : Bool)
    (src dst : Option String) (st : IcmpState) : IcmpState × Option IcmpDetection :=
  if !hasIcmpLayer then (st, none) else
  let window1 := st.window ++ [(now, src)]
  let window2 := window1.dropWhile (fun e => decide (1 < now - e.1))
  let threshold := icmp_per_sec
  let count_src := (window2.filter (fun e => decide (e.2 = src))).length
  if threshold < (count_src : ℤ) then
    let last_alert := dictGetD src 0 st.lastAlert
    if now - last_alert < 5 then
      ({ window := window2, lastAlert := st.lastAlert }, none)
    else
      ({ window := window2, lastAlert := dictInsert src now st.lastAlert },
        some { src := strOrEmpty src, dst := strOrEmpty dst, proto := "ICMP",
               ruleId := "ICMP_RATE", severity := "high",
               summary := "ICMP echo rate " ++ toString count_src
                            ++ "/s exceeds threshold " ++ toString threshold,
               rate := count_src, threshold := threshold })
  else
    ({ window := window2, lastAlert := st.lastAlert }, none)

/-! ## ARP multi-MAC detector (src/idsips/detectors/arp.py) -/

/-- Ascending sort, modelling Python `sorted` / `list.sort()`. -/
def sortStr (l : List String) : List String := l.insertionSort (· ≤ ·)

/-- One detection record as written by `emit_event` from `detect_arp`. -/
structure ArpDetection where
  src : String
  dst : String
  proto : String
  ruleId : String
  severity : String
  summary : String
  macs : List String
  window : ℤ
deriving DecidableEq, Repr

/-- The distinct MACs observed for `ip` in the window `ts`, in first-seen
order: the value `ip2macs.get(ip, set())` of `detect_arp`, as a duplicate-free
list. -/
def arpMacsFor (ts : List (ℚ × String × String)) (ip : String) : List String :=
  ((ts.filter (fun e => decide (e.2.1 = ip))).map (fun e => e.2.2)).dedup

/-- Embedding of `detect_arp(cfg, pkt, src, dst)`.  `arp_window_sec` is
`int(cfg["thresholds"]["arp_window_sec"])`, `spa`/`sha` are the sender
protocol/hardware addresses of the ARP layer, `ts` is the module-level
`_TS` deque of `(timestamp, ip, mac)` triples. -/
def detect_arp (arp_window_sec : ℤ) (now : ℚ) (hasArpLayer : Bool)
    (spa sha dst : Option String) (ts : List (ℚ × String × String)) :
    List (ℚ × String × String) × Option ArpDetection :=
  if !hasArpLayer then (ts, none) else
  if truthyStr spa && truthyStr sha then
    let ip := strOrEmpty spa
    let mac := strOrEmpty sha
    let ts1 := ts ++ [(now, ip, mac)]
    let ts2 := ts1.dropWhile (fun e => decide ((arp_window_sec : ℚ) < now - e.1))
    let macs := arpMacsFor ts2 ip
    if 2 ≤ macs.length then
      (ts2, some { src := ip, dst := strOrEmpty dst, proto := "ARP",
                   ruleId := "ARP_MULTIMAC", severity := "medium",
                   summary := "Multiple MACs observed for IP " ++ ip ++ " over "
                                ++ toString arp_window_sec ++ "s window",
                   macs := sortStr macs, window := arp_window_sec })
    else (ts2, none)
  else (ts, none)

/-! ## DNS suspicious-name detector (src/idsips/detectors/dns.py) -/

/-- One detection record as written by `emit_event` from `detect_dns`. -/
structure DnsDetection where
  src : String
  dst : String
  proto : String
  ruleId : String
  severity : String
  summary : String
  name : String
  longLabel : Bool
  tooLong : Bool
  entropy : ℝ

/-- Embedding of `_entropy(s)`: Shannon entropy over the character-frequency
distribution of `s` (`Counter` iterates each distinct character once, which
is `s.toList.dedup`). -/
noncomputable def _entropy (s : String) : ℝ :=
  if s = "" then 0
  else
    -(((s.toList.dedup).map (fun c =>
        ((s.toList.count c : ℝ) / (s.length : ℝ)) *
          Real.logb 2 ((s.toList.count c : ℝ) / (s.length : ℝ)))).sum)

/-- Models Python `round(x, 2)` (tie-breaking at exact half-hundredths aside,
which no claim depends on). -/
noncomputable def roundTo2 (x : ℝ) : ℝ := (round (x * 100) : ℤ) / 100

open Classical in
/-- Embedding of `detect_dns(cfg, pkt, src, dst)`.  `qry_name`/`qry_name_raw`
are the two DNS-layer attributes probed by the code; the thresholds are the
three `cfg["thresholds"]` values. -/
noncomputable def detect_dns (dns_label_max dns_name_max : ℤ)
    (dns_entropy_threshold : ℝ) (hasDnsLayer : Bool)
    (qry_name qry_name_raw : Option String) (src dst : Option String) :
    Option DnsDetection :=
  if !hasDnsLayer then none else
  let name? := if truthyStr qry_name then qry_name else qry_name_raw
  if truthyStr name? then
    let name := strOrEmpty name?
    let labels := (name.splitOn ".").filter (fun l => decide (l ≠ ""))
    let long_label := labels.any (fun l => decide (dns_label_max < (l.length : ℤ)))
    let too_long := decide (dns_name_max < (name.length : ℤ))
    let ent := _entropy name
    let high_entropy := dns_entropy_threshold ≤ ent
    if long_label = true ∨ too_long = true ∨ high_entropy then
      some { src := strOrEmpty src, dst := strOrEmpty dst, proto := "DNS",
             ruleId := "DNS_SUSPICIOUS", severity := "medium",
             summary := "Suspicious DNS query name",
             name := name, longLabel := long_label, tooLong := too_long,
             entropy := roundTo2 ent }
    else none
  else none

/-! ## Orchestrator (src/idsips/agent/cli.py, `process_packet`)

The four detector invocations inside the single `try` block of
`process_packet` are modelled abstractly as a list of stages: each stage is
either disabled (its rule flag is off), or runs and returns the detections it
emits, or runs and raises.  The result records which stages were invoked (by
position), the detections emitted, and the error reported by the `except`
handler via `emit_ops`, if any. -/

/-- One detector invocation slot of `process_packet`: the configuration flag
and the outcome of evaluating the detector on the current event. -/
structure Stage (D : Type) where
  enabled : Bool
  run : Except String (List D)

/-- Walks the detector slots exactly as the `try` body of `process_packet`
does: disabled stages are skipped, an enabled stage that raises transfers
control to the `except` handler, which reports the error and ends the event's
processing. Returns (invoked stage positions, emitted detections, reported
error). -/
def runStages {D : Type} : List (Stage D) → ℕ → List ℕ × List D × Option String
  | [], _ => ([], [], none)
  | s :: rest, idx =>
    if s.enabled then
      match s.run with
      | Except.ok ds =>
        let r := runStages rest (idx + 1)
        (idx :: r.1, ds ++ r.2.1, r.2.2)
      | Except.error msg => ([idx], [], some msg)
    else runStages rest (idx + 1)

/-- Embedding of `process_packet(cfg, pkt)` restricted to its detector
routing and failure handling. -/
def process_packet {D : Type} (stages : List (Stage D)) : List ℕ × List D × Option String :=
  runStages stages 0

/-- The capture loops of `cmd_pcap` / `cmd_live`: each packet of the stream is
handed to `process_packet` in turn; `process_packet` never propagates an
exception, so every event is processed. -/
def processStream {E D : Type} (stages : E → List (Stage D)) (evs : List E) :
    List (List ℕ × List D × Option String) :=
  evs.map (fun e => process_packet (stages e))

/-- The positions of the enabled stages, starting at `idx`: the detectors that
one full fault-free pass of the `try` body invokes. -/
def enabledIdxs {D : Type} : List (Stage D) → ℕ → List ℕ
  | [], _ => []
  | s :: rest, idx =>
    if s.enabled then idx :: enabledIdxs rest (idx + 1) else enabledIdxs rest (idx + 1)

/-! ## Detection-history ingestion (src/idsips/siem/ingest.py) -/

/-- Python `line.strip()`: leading and trailing whitespace removed. -/
def stripStr (s : String) : String :=
  String.mk (((s.toList.dropWhile Char.isWhitespace).reverse.dropWhile
    Char.isWhitespace).reverse)

/-- The per-line loop of `read_events`: strip, skip blank lines, parse with
`json.loads` (abstracted as `parse`), skip lines that fail to parse. -/
def readLoop {R : Type} (parse : String → Option R) : List String → List R
  | [] => []
  | line :: rest =>
    let s := stripStr line
    if s = "" then readLoop parse rest
    else
      match parse s with
      | some r => r :: readLoop parse rest
      | none => readLoop parse rest

/-- Embedding of `read_events(path)`: a missing file yields `[]`, otherwise
the file's lines are folded through `readLoop`. -/
def read_events {R : Type} (fileExists : Bool) (parse : String → Option R)
    (lines : List String) : List R :=
  if fileExists then readLoop parse lines else []

/-! ## Correlator (src/idsips/siem/mini_siem.py) -/

/-- Embedding of the local `to_epoch(ts)` of `correlate`:
`datetime.fromisoformat(ts).timestamp()` is abstracted as `fromisoformat`;
a timestamp that fails to parse falls back to `time.time()` (`wallClockNow`). -/
def to_epoch (fromisoformat : String → Option ℚ) (wallClockNow : ℚ) (ts : String) : ℚ :=
  match fromisoformat ts with
  | some t => t
  | none => wallClockNow

/-- One detection record as consumed by `correlate`: `e.get("src","")`,
`e.get("rule_id","")` and the `to_epoch` image of `e.get("ts","")`. -/
structure DetRecord where
  src : String
  ruleId : String
  t : ℚ
deriving DecidableEq, Repr

/-- One alert record as written by `emit_alert`. -/
structure Alert where
  alertId : String
  severity : String
  summary : String
  entities : List (String × String)
  evidenceCount : ℕ
deriving DecidableEq, Repr

/-- Append to a `defaultdict(list)` entry, modelling `d[k].append(v)` on an
insertion-ordered dict. -/
def dictAppend {K : Type} [DecidableEq K] (k : K) (v : ℚ) :
    List (K × List ℚ) → List (K × List ℚ)
  | [] => [(k, [v])]
  | (k', vs) :: rest =>
    if k' = k then (k', vs ++ [v]) :: rest else (k', vs) :: dictAppend k v rest

/-- The `by_src` / `by_rule` grouping loop of `correlate`: timestamps grouped
by key, keys in first-occurrence order, each key's timestamps in history
order. -/
def groupTimes (f : DetRecord → String) (evs : List DetRecord) :
    List (String × List ℚ) :=
  evs.foldl (fun d e => dictAppend (f e) e.t d) []

/-- Ascending sort of timestamps, modelling `times.sort()`. -/
def sortQ (l : List ℚ) : List ℚ := l.insertionSort (· ≤ ·)

/-- The inner `while times[j] - times[i] > window: i += 1` loop of the burst
rule (window = 60 s).  `fuel` bounds the number of increments; any
`fuel ≥ j - i` makes it exact, and the scan always calls it with `fuel = j`. -/
def advanceI (times : List ℚ) (j : ℕ) : ℕ → ℕ → ℕ
  | 0, i => i
  | fuel + 1, i =>
    if i < j ∧ 60 < times.getD j 0 - times.getD i 0 then advanceI times j fuel (i + 1)
    else i

/-- The `for j in range(len(times))` scan of the burst rule: advance `i`,
emit the window size `j - i + 1` and stop as soon as it reaches 30.  `fuel`
bounds the number of `j` steps; `burstScan` supplies `fuel = len(times)`,
which makes the recursion exact. -/
def burstLoop (times : List ℚ) : ℕ → ℕ → ℕ → Option ℕ
  | 0, _, _ => none
  | fuel + 1, i, j =>
    if j < times.length then
      let i' := advanceI times j j i
      if 30 ≤ j - i' + 1 then some (j - i' + 1)
      else burstLoop times fuel i' (j + 1)
    else none

/-- The per-source burst scan over already-sorted timestamps: `some n` is the
evidence count of the single alert emitted before `break`, `none` means the
scan ran to completion without an alert. -/
def burstScan (times : List ℚ) : Option ℕ := burstLoop times times.length 0 0

/-- The `emit_alert` record of the burst rule for source `s` with window
size `n`. -/
def mkBurstAlert (s : String) (n : ℕ) : Alert :=
  { alertId := "ALERT_ICMP_FLOOD", severity := "high",
    summary := "High volume events from " ++ s ++ " in 60s",
    entities := [("src", s)], evidenceCount := n }

/-- The `emit_alert` record of the repetition rule for rule `r` with total
count `n`. -/
def mkRepeatAlert (r : String) (n : ℕ) : Alert :=
  { alertId := "ALERT_REPEATED_RULE", severity := "medium",
    summary := "Rule " ++ r ++ " fired " ++ toString n ++ " times",
    entities := [("rule_id", r)], evidenceCount := n }

/-- The first `for src, times in by_src.items()` loop of `correlate`: per
source, sort the timestamps, run the two-pointer scan, and emit at most one
`ALERT_ICMP_FLOOD`. -/
def correlateBurst (evs : List DetRecord) : List Alert :=
  (groupTimes (fun e => e.src) evs).filterMap (fun p =>
    (burstScan (sortQ p.2)).map (fun n => mkBurstAlert p.1 n))

/-- The second `for r, times in by_rule.items()` loop of `correlate`: one
`ALERT_REPEATED_RULE` per rule whose whole-history count is at least 50. -/
def correlateRepeat (evs : List DetRecord) : List Alert :=
  (groupTimes (fun e => e.ruleId) evs).filterMap (fun p =>
    if 50 ≤ p.2.length then some (mkRepeatAlert p.1 p.2.length) else none)

/-- Embedding of `correlate(cfg, events)`: the burst pass followed by the
repetition pass, each over the whole history. -/
def correlate (evs : List DetRecord) : List Alert :=
  correlateBurst evs ++ correlateRepeat evs

/-! ## Helper lemmas -/

/-- `dict.get(k, dflt)` is first-match lookup with a default. -/
lemma dictGetD_eq_find {K V : Type} [DecidableEq K] (k : K) (dflt : V) :
    ∀ d : List (K × V), dictGetD k dflt d = (dictFind k d).getD dflt := by
  intro d
  induction d with
  | nil => rfl
  | cons p rest ih =>
      obtain ⟨k', v⟩ := p
      by_cases h : k' = k <;> simp [dictGetD, dictFind, h, ih]

/-- `detect_icmp` updates the window to the evicted appended window in every
branch (also when the cooldown suppresses the emission). -/
lemma detect_icmp_window (th : ℤ) (now : ℚ) (src dst : Option String) (st : IcmpState) :
    (detect_icmp th now true src dst st).1.window =
      (st.window ++ [(now, src)]).dropWhile (fun e => decide (1 < now - e.1)) := by
  unfold detect_icmp
  rw [if_neg (by decide : ¬((!true : Bool) = true))]
  dsimp only
  split
  · split <;> rfl
  · rfl

/-- With both addresses present, `detect_arp` leaves the state at the
evicted appended window in both branches. -/
lemma detect_arp_state (w : ℤ) (now : ℚ) (spa sha dst : Option String)
    (ts : List (ℚ × String × String)) (hip : truthyStr spa = true)
    (hmac : truthyStr sha = true) :
    (detect_arp w now true spa sha dst ts).1 =
      (ts ++ [(now, strOrEmpty spa, strOrEmpty sha)]).dropWhile
        (fun e => decide ((w : ℚ) < now - e.1)) := by
  unfold detect_arp
  rw [if_neg (by decide : ¬((!true : Bool) = true)),
    if_pos (by simp [hip, hmac] : (truthyStr spa && truthyStr sha) = true)]
  dsimp only
  split <;> rfl

/-- After an eviction pass over a window whose timestamps are in
non-decreasing order, every surviving entry is within the horizon. -/
lemma dropWhile_age_bound {α : Type} (h now : ℚ) :
    ∀ l : List (ℚ × α), List.Pairwise (fun a b => a.1 ≤ b.1) l →
      ∀ e ∈ l.dropWhile (fun e => decide (h < now - e.1)), now - e.1 ≤ h := by
  intro l
  induction l with
  | nil => intro _ e he; simp [List.dropWhile] at he
  | cons a l ih =>
      intro hp e he
      rw [List.pairwise_cons] at hp
      rw [List.dropWhile_cons] at he
      by_cases ha : h < now - a.1
      · rw [if_pos (by simpa using ha)] at he
        exact ih hp.2 e he
      · rw [if_neg (by simpa using ha)] at he
        rcases List.mem_cons.mp he with rfl | hel
        · exact le_of_not_lt ha
        · have h1 : a.1 ≤ e.1 := hp.1 e hel
          have : now - e.1 ≤ now - a.1 := by linarith
          exact le_trans this (le_of_not_lt ha)

/-- Appending a fresh entry timestamped `now` keeps the window's timestamps
in non-decreasing order. -/
lemma pairwise_append_now {α : Type} (now : ℚ) (x : α) :
    ∀ l : List (ℚ × α), List.Pairwise (fun a b => a.1 ≤ b.1) l →
      (∀ e ∈ l, e.1 ≤ now) →
      List.Pairwise (fun a b => a.1 ≤ b.1) (l ++ [(now, x)]) := by
  intro l hp hb
  rw [List.pairwise_append]
  exact ⟨hp, List.pairwise_singleton _ _, fun a ha b hb' => by
    rw [List.mem_singleton] at hb'
    subst hb'
    exact hb a ha⟩

/-! ## Claim C9 -/

/-- C9: when the correlator reads the detection history, every malformed
line (one `json.loads` cannot parse) is skipped individually and ingestion
continues with the remaining lines — removing a malformed line does not
change the result on the rest, and reading is compositional — while a
missing history file yields an empty history; likewise a detection whose
timestamp fails `datetime.fromisoformat` does not abort `correlate` but
falls back to the current wall-clock time. -/
theorem correlator_ingestion_skips_malformed :
    (∀ (R : Type) (parse : String → Option R) (lines : List String),
        read_events false parse lines = []) ∧
    (∀ (R : Type) (parse : String → Option R) (xs ys : List String),
        readLoop parse (xs ++ ys) = readLoop parse xs ++ readLoop parse ys) ∧
    (∀ (R : Type) (parse : String → Option R) (xs : List String) (bad : String)
        (ys : List String), parse (stripStr bad) = none →
        read_events true parse (xs ++ bad :: ys) = read_events true parse (xs ++ ys)) ∧
    (∀ (fromisoformat : String → Option ℚ) (wallClockNow : ℚ) (ts : String),
        fromisoformat ts = none →
        to_epoch fromisoformat wallClockNow ts = wallClockNow) := by
  have happ : ∀ (R : Type) (parse : String → Option R) (xs ys : List String),
      readLoop parse (xs ++ ys) = readLoop parse xs ++ readLoop parse ys := by
    intro R parse xs ys
    induction xs with
    | nil => simp [readLoop]
    | cons x xs ih =>
        simp only [List.cons_append, readLoop]
        split
        · exact ih
        · cases parse (stripStr x) <;> simp [ih]
  refine ⟨fun R parse lines => rfl, happ, ?_, ?_⟩
  · intro R parse xs bad ys hbad
    have hskip : readLoop parse (bad :: ys) = readLoop parse ys := by
      simp only [readLoop]
      split
      · rfl
      · rw [hbad]
    simp only [read_events, if_pos rfl, happ R parse xs, hskip]
  · intro fromisoformat wallClockNow ts h
    simp [to_epoch, h]

/-- Witness for C9 at a concrete parser, history and timestamp. -/
theorem correlator_ingestion_skips_malformed_witness :
    read_events true (fun s => if s = "ok" then some 1 else none) (["ok"] ++ "junk" :: []) =
      read_events true (fun s => if s = "ok" then some 1 else none) (["ok"] ++ []) ∧
    to_epoch (fun _ => none) 42 "bad-ts" = 42 :=
  ⟨correlator_ingestion_skips_malformed.2.2.1 ℕ _ ["ok"] "junk" [] (by decide),
    correlator_ingestion_skips_malformed.2.2.2 _ 42 "bad-ts" rfl⟩

/-! ## Claim C1 (corrected) -/

/-- Fault-free stages starting at `idx` are all invoked, in order, with no
error reported. -/
lemma runStages_all_ok {D : Type} :
    ∀ (stages : List (Stage D)) (idx : ℕ),
      (∀ s ∈ stages, s.enabled = true → ∃ ds, s.run = Except.ok ds) →
      (runStages stages idx).1 = enabledIdxs stages idx ∧
      (runStages stages idx).2.2 = none := by
  intro stages
  induction stages with
  | nil => intro idx _; exact ⟨rfl, rfl⟩
  | cons s rest ih =>
      intro idx h
      by_cases he : s.enabled = true
      · obtain ⟨ds, hds⟩ := h s (List.mem_cons_self _ _) he
        have ihr := ih (idx + 1) (fun s' hs' => h s' (List.mem_cons_of_mem _ hs'))
        simp [runStages, enabledIdxs, he, hds, ihr.1, ihr.2]
      · have ihr := ih (idx + 1) (fun s' hs' => h s' (List.mem_cons_of_mem _ hs'))
        simp [runStages, enabledIdxs, he, ihr.1, ihr.2]

/-- When the first faulting enabled stage sits after a fault-free prefix,
the walk invokes exactly the enabled prefix stages and the faulting stage,
and reports the fault's message. -/
lemma runStages_error {D : Type} (s : Stage D) (post : List (Stage D)) (msg : String)
    (he : s.enabled = true) (hrun : s.run = Except.error msg) :
    ∀ (pre : List (Stage D)) (idx : ℕ),
      (∀ s' ∈ pre, s'.enabled = true → ∃ ds, s'.run = Except.ok ds) →
      (runStages (pre ++ s :: post) idx).1 = enabledIdxs pre idx ++ [idx + pre.length] ∧
      (runStages (pre ++ s :: post) idx).2.2 = some msg := by
  intro pre
  induction pre with
  | nil => intro idx _; simp [runStages, enabledIdxs, he, hrun]
  | cons p rest ih =>
      intro idx h
      by_cases hp : p.enabled = true
      · obtain ⟨ds, hds⟩ := h p (List.mem_cons_self _ _) hp
        have ihr := ih (idx + 1) (fun s' hs' => h s' (List.mem_cons_of_mem _ hs'))
        simp [runStages, enabledIdxs, hp, hds, ihr.1, ihr.2]
        omega
      · have ihr := ih (idx + 1) (fun s' hs' => h s' (List.mem_cons_of_mem _ hs'))
        simp [runStages, enabledIdxs, hp, ihr.1, ihr.2]
        omega

/-- C1 counterexample: in `process_packet` the single `try` block spans all
detector invocations, so when the first enabled detector raises, the second
enabled detector is not invoked on that event — the claim that the
remaining enabled detectors are still invoked on the same event is false.
Stage 0 raises, stage 1 is enabled and fault-free, yet only stage 0 is in
the invoked list. -/
theorem orchestrator_failure_isolation_counterexample :
    1 ∉ (process_packet [⟨true, Except.error "boom"⟩,
          ⟨true, Except.ok ([] : List ℕ)⟩]).1 ∧
    (process_packet [⟨true, Except.error "boom"⟩,
          ⟨true, Except.ok ([] : List ℕ)⟩]).1 = [0] := by
  exact ⟨by decide, by decide⟩

/-- C1 amended: an exception in one enabled detector is caught by
`process_packet` at the per-event boundary and reported (`emit_ops` error);
the enabled detectors before the failing one have already been invoked, but
the enabled detectors after it are skipped for that event; subsequent
events (and prior ones) are processed independently, each by every enabled
detector as long as none of them raises. -/
theorem orchestrator_failure_isolation :
    (∀ (E D : Type) (stages : E → List (Stage D)) (xs : List E) (e : E) (ys : List E),
        processStream stages (xs ++ e :: ys) =
          processStream stages xs ++
            process_packet (stages e) :: processStream stages ys) ∧
    (∀ (D : Type) (stages : List (Stage D)),
        (∀ s ∈ stages, s.enabled = true → ∃ ds, s.run = Except.ok ds) →
        (process_packet stages).1 = enabledIdxs stages 0 ∧
        (process_packet stages).2.2 = none) ∧
    (∀ (D : Type) (pre : List (Stage D)) (s : Stage D) (post : List (Stage D))
        (msg : String),
        (∀ s' ∈ pre, s'.enabled = true → ∃ ds, s'.run = Except.ok ds) →
        s.enabled = true → s.run = Except.error msg →
        (process_packet (pre ++ s :: post)).1 = enabledIdxs pre 0 ++ [pre.length] ∧
        (process_packet (pre ++ s :: post)).2.2 = some msg) := by
  refine ⟨?_, ?_, ?_⟩
  · intro E D stages xs e ys
    simp [processStream]
  · intro D stages h
    exact runStages_all_ok stages 0 h
  · intro D pre s post msg h he hrun
    have := runStages_error s post msg he hrun pre 0 h
    simpa [process_packet] using this

/-- Witness for C1's amended theorem at a concrete two-stage event. -/
theorem orchestrator_failure_isolation_witness :
    (process_packet ([⟨true, Except.ok [7]⟩, ⟨true, Except.error "boom"⟩,
        ⟨false, Except.ok []⟩] : List (Stage ℕ))).1 =
      enabledIdxs ([⟨true, Except.ok [7]⟩] : List (Stage ℕ)) 0 ++ [1] ∧
    (process_packet ([⟨true, Except.ok [7]⟩, ⟨true, Except.error "boom"⟩,
        ⟨false, Except.ok []⟩] : List (Stage ℕ))).2.2 = some "boom" :=
  orchestrator_failure_isolation.2.2 ℕ [⟨true, Except.ok [7]⟩]
    ⟨true, Except.error "boom"⟩ [⟨false, Except.ok []⟩] "boom"
    (by
      intro s' hs' _
      rw [List.mem_singleton] at hs'
      subst hs'
      exact ⟨[7], rfl⟩)
    rfl rfl

/-! ## Claim C2 (corrected) -/

/-- C2 counterexample: the ICMP detector performs no presence check on its
source field.  On an event that carries the ICMP layer but whose source is
absent (`src = None`), it still appends `(now, None)` to the rolling window
— a state mutation — and (here with threshold 0 at time 10) even emits a
detection, contradicting the claim that a missing required field leaves the
state unchanged and emits nothing. -/
theorem detector_missing_field_counterexample :
    (detect_icmp 0 10 true none none ⟨[], []⟩).1.window = [(10, none)] ∧
    (detect_icmp 0 10 true none none ⟨[], []⟩).2.isSome = true := by
  constructor
  · rw [detect_icmp_window]
    norm_num
  · unfold detect_icmp
    rw [if_neg (by decide : ¬((!true : Bool) = true))]
    norm_num [dictGetD]

/-- C2 amended: the ARP detector skips with no state mutation and no
emission when the sender IP or sender MAC is absent (or empty), and the DNS
detector emits nothing when the query name is absent (it holds no state);
the ICMP detector, however, performs no such check: with an absent source
it still appends `(now, None)` to its window (and can even emit, see the
counterexample). -/
theorem detector_missing_field_skip :
    (∀ (w : ℤ) (now : ℚ) (spa sha dst : Option String)
        (ts : List (ℚ × String × String)),
        truthyStr spa = false ∨ truthyStr sha = false →
        detect_arp w now true spa sha dst ts = (ts, none)) ∧
    (∀ (lm nm : ℤ) (thr : ℝ) (qn qnr src dst : Option String),
        truthyStr (if truthyStr qn then qn else qnr) = false →
        detect_dns lm nm thr true qn qnr src dst = none) ∧
    (∀ (th : ℤ) (now : ℚ) (dst : Option String) (st : IcmpState),
        (detect_icmp th now true none dst st).1.window =
          (st.window ++ [(now, none)]).dropWhile (fun e => decide (1 < now - e.1))) := by
  refine ⟨?_, ?_, ?_⟩
  · intro w now spa sha dst ts h
    unfold detect_arp
    rw [if_neg (by decide : ¬((!true : Bool) = true))]
    rcases h with h | h <;> simp [h]
  · intro lm nm thr qn qnr src dst h
    unfold detect_dns
    rw [if_neg (by decide : ¬((!true : Bool) = true))]
    dsimp only
    rw [if_neg (by simp [h])]
  · intro th now dst st
    exact detect_icmp_window th now none dst st

/-- Witness for C2's amended theorem at concrete missing-field events. -/
theorem detector_missing_field_skip_witness :
    detect_arp 10 5 true none (some "aa:bb") none [] = ([], none) ∧
    detect_dns 20 50 (3.5 : ℝ) true none none none none = none ∧
    (detect_icmp 0 7 true none none ⟨[], []⟩).1.window =
      (([] ++ [((7 : ℚ), none)]).dropWhile (fun e => decide (1 < (7 : ℚ) - e.1))) :=
  ⟨detector_missing_field_skip.1 10 5 none (some "aa:bb") none [] (Or.inl (by decide)),
    detector_missing_field_skip.2.1 20 50 (3.5 : ℝ) none none none none (by decide),
    detector_missing_field_skip.2.2 0 7 none ⟨[], []⟩⟩

/-! ## Claim C3 -/

/-- C3: on each ICMP event, after appending `(now, src)` and evicting
entries older than 1.0 s, the detector emits an `ICMP_RATE` detection of
severity `high` carrying the rate and the threshold iff the count of window
entries from this source exceeds `icmp_per_sec` and at least 5.0 s have
passed since the last alert recorded for this source (or none was ever
recorded); exactly on emission the cooldown entry for the source is set to
`now`, and on suppression the window is still updated while the cooldown is
unchanged.  The hypothesis `5 ≤ now` reflects that `now` is a wall-clock
epoch timestamp, under which the code's `_LAST_ALERT.get(src, 0)` default
behaves exactly like "no alert ever emitted". -/
theorem icmp_rate_emission_spec (th : ℤ) (now : ℚ) (src dst : Option String)
    (st : IcmpState) (h5 : 5 ≤ now) :
    (detect_icmp th now true src dst st).1.window =
      (st.window ++ [(now, src)]).dropWhile (fun e => decide (1 < now - e.1)) ∧
    ((detect_icmp th now true src dst st).2.isSome = true ↔
      (th < ((((st.window ++ [(now, src)]).dropWhile
            (fun e => decide (1 < now - e.1))).filter
            (fun e => decide (e.2 = src))).length : ℤ) ∧
        ∀ last, dictFind src st.lastAlert = some last → 5 ≤ now - last)) ∧
    (∀ det, (detect_icmp th now true src dst st).2 = some det →
        det.ruleId = "ICMP_RATE" ∧ det.severity = "high" ∧
        det.rate = (((st.window ++ [(now, src)]).dropWhile
            (fun e => decide (1 < now - e.1))).filter
            (fun e => decide (e.2 = src))).length ∧
        det.threshold = th ∧
        (detect_icmp th now true src dst st).1.lastAlert =
          dictInsert src now st.lastAlert) ∧
    ((detect_icmp th now true src dst st).2 = none →
      (detect_icmp th now true src dst st).1.lastAlert = st.lastAlert) := by
  have hgd : dictGetD src (0 : ℚ) st.lastAlert = (dictFind src st.lastAlert).getD 0 :=
    dictGetD_eq_find src 0 st.lastAlert
  by_cases hcnt : th < ((((st.window ++ [(now, src)]).dropWhile
      (fun e => decide (1 < now - e.1))).filter
      (fun e => decide (e.2 = src))).length : ℤ)
  · by_cases hcd : now - dictGetD src 0 st.lastAlert < 5
    · -- within cooldown: suppressed, state still updated, cooldown unchanged
      have heq : detect_icmp th now true src dst st =
          ({ window := (st.window ++ [(now, src)]).dropWhile
              (fun e => decide (1 < now - e.1)),
             lastAlert := st.lastAlert }, none) := by
        unfold detect_icmp
        rw [if_neg (by decide : ¬((!true : Bool) = true))]
        dsimp only
        rw [if_pos hcnt, if_pos hcd]
      refine ⟨by rw [heq], ?_, ?_, ?_⟩
      · rw [heq]
        simp only [Option.isSome_none, Bool.false_eq_true, false_iff]
        rintro ⟨-, hall⟩
        cases hfind : dictFind src st.lastAlert with
        | none =>
            rw [hgd, hfind] at hcd
            simp only [Option.getD_none] at hcd
            linarith
        | some last =>
            have := hall last hfind
            rw [hgd, hfind] at hcd
            simp only [Option.getD_some] at hcd
            linarith
      · intro det hdet
        rw [heq] at hdet
        exact absurd hdet (by simp)
      · intro _
        rw [heq]
    · -- emission: cooldown entry set to now
      have heq : detect_icmp th now true src dst st =
          ({ window := (st.window ++ [(now, src)]).dropWhile
              (fun e => decide (1 < now - e.1)),
             lastAlert := dictInsert src now st.lastAlert },
            some { src := strOrEmpty src, dst := strOrEmpty dst, proto := "ICMP",
                   ruleId := "ICMP_RATE", severity := "high",
                   summary := "ICMP echo rate "
                     ++ toString (((st.window ++ [(now, src)]).dropWhile
                          (fun e => decide (1 < now - e.1))).filter
                          (fun e => decide (e.2 = src))).length
                     ++ "/s exceeds threshold " ++ toString th,
                   rate := (((st.window ++ [(now, src)]).dropWhile
                        (fun e => decide (1 < now - e.1))).filter
                        (fun e => decide (e.2 = src))).length,
                   threshold := th }) := by
        unfold detect_icmp
        rw [if_neg (by decide : ¬((!true : Bool) = true))]
        dsimp only
        rw [if_pos hcnt, if_neg hcd]
      refine ⟨by rw [heq], ?_, ?_, ?_⟩
      · rw [heq]
        simp only [Option.isSome_some, true_iff]
        refine ⟨hcnt, fun last hfind => ?_⟩
        rw [hgd, hfind] at hcd
        simp only [Option.getD_some] at hcd
        linarith
      · intro det hdet
        rw [heq] at hdet
        simp only [Option.some.injEq] at hdet
        subst hdet
        exact ⟨rfl, rfl, rfl, rfl, by rw [heq]⟩
      · intro hnone
        rw [heq] at hnone
        exact absurd hnone (by simp)
  · -- rate not exceeded: no emission, cooldown unchanged
    have heq : detect_icmp th now true src dst st =
        ({ window := (st.window ++ [(now, src)]).dropWhile
            (fun e => decide (1 < now - e.1)),
           lastAlert := st.lastAlert }, none) := by
      unfold detect_icmp
      rw [if_neg (by decide : ¬((!true : Bool) = true))]
      dsimp only
      rw [if_neg hcnt]
    refine ⟨by rw [heq], ?_, ?_, ?_⟩
    · rw [heq]
      simp only [Option.isSome_none, Bool.false_eq_true, false_iff]
      rintro ⟨hc, -⟩
      exact hcnt hc
    · intro det hdet
      rw [heq] at hdet
      exact absurd hdet (by simp)
    · intro _
      rw [heq]

/-- Witness for C3 at a concrete event and empty state. -/
theorem icmp_rate_emission_spec_witness :
    (5 : ℚ) ≤ 10 ∧
    (detect_icmp 0 10 true (some "h") none ⟨[], []⟩).1.window =
      (([] : List (ℚ × Option String)) ++ [((10 : ℚ), some "h")]).dropWhile
        (fun e => decide (1 < (10 : ℚ) - e.1)) :=
  ⟨by decide, (icmp_rate_emission_spec 0 10 (some "h") none ⟨[], []⟩ (by decide)).1⟩

/-! ## Claim C6 -/

/-- `sorted` returns an ascending list. -/
lemma sortStr_sorted (l : List String) : List.Sorted (· ≤ ·) (sortStr l) :=
  List.sorted_insertionSort _ l

/-- `sorted` keeps exactly the input's elements. -/
lemma mem_sortStr {m : String} {l : List String} : m ∈ sortStr l ↔ m ∈ l :=
  List.mem_insertionSort _

/-- C6: on each ARP event with both sender IP and sender MAC present, the
detector appends `(now, ip, mac)`, evicts entries older than
`arp_window_sec`, and emits an `ARP_MULTIMAC` detection of severity
`medium` iff the set of distinct MACs observed for that IP within the
window (`arpMacsFor`, a duplicate-free list) has size at least 2; the
emitted `metadata.macs` is that set sorted ascending (so it contains every
MAC of the set), and there is no cooldown: the emission is a pure function
of the updated window, so every call meeting the condition emits. -/
theorem arp_multimac_spec (w : ℤ) (now : ℚ) (spa sha dst : Option String)
    (ts : List (ℚ × String × String)) (hip : truthyStr spa = true)
    (hmac : truthyStr sha = true) :
    (detect_arp w now true spa sha dst ts).1 =
      (ts ++ [(now, strOrEmpty spa, strOrEmpty sha)]).dropWhile
        (fun e => decide ((w : ℚ) < now - e.1)) ∧
    ((detect_arp w now true spa sha dst ts).2.isSome = true ↔
      2 ≤ (arpMacsFor ((ts ++ [(now, strOrEmpty spa, strOrEmpty sha)]).dropWhile
            (fun e => decide ((w : ℚ) < now - e.1))) (strOrEmpty spa)).length) ∧
    (∀ det, (detect_arp w now true spa sha dst ts).2 = some det →
        det.macs = sortStr (arpMacsFor
            ((ts ++ [(now, strOrEmpty spa, strOrEmpty sha)]).dropWhile
              (fun e => decide ((w : ℚ) < now - e.1))) (strOrEmpty spa)) ∧
        List.Sorted (· ≤ ·) det.macs ∧
        (∀ m, m ∈ det.macs ↔ m ∈ arpMacsFor
            ((ts ++ [(now, strOrEmpty spa, strOrEmpty sha)]).dropWhile
              (fun e => decide ((w : ℚ) < now - e.1))) (strOrEmpty spa)) ∧
        det.ruleId = "ARP_MULTIMAC" ∧ det.severity = "medium" ∧
        det.window = w ∧ det.src = strOrEmpty spa) := by
  by_cases hm : 2 ≤ (arpMacsFor ((ts ++ [(now, strOrEmpty spa, strOrEmpty sha)]).dropWhile
      (fun e => decide ((w : ℚ) < now - e.1))) (strOrEmpty spa)).length
  · have heq : detect_arp w now true spa sha dst ts =
        ((ts ++ [(now, strOrEmpty spa, strOrEmpty sha)]).dropWhile
            (fun e => decide ((w : ℚ) < now - e.1)),
          some { src := strOrEmpty spa, dst := strOrEmpty dst, proto := "ARP",
                 ruleId := "ARP_MULTIMAC", severity := "medium",
                 summary := "Multiple MACs observed for IP " ++ strOrEmpty spa
                   ++ " over " ++ toString w ++ "s window",
                 macs := sortStr (arpMacsFor
                     ((ts ++ [(now, strOrEmpty spa, strOrEmpty sha)]).dropWhile
                       (fun e => decide ((w : ℚ) < now - e.1))) (strOrEmpty spa)),
                 window := w }) := by
      unfold detect_arp
      rw [if_neg (by decide : ¬((!true : Bool) = true)),
        if_pos (by simp [hip, hmac] : (truthyStr spa && truthyStr sha) = true)]
      dsimp only
      rw [if_pos hm]
    refine ⟨by rw [heq], ?_, ?_⟩
    · rw [heq]
      simpa using hm
    · intro det hdet
      rw [heq] at hdet
      simp only [Option.some.injEq] at hdet
      subst hdet
      exact ⟨rfl, sortStr_sorted _, fun m => mem_sortStr, rfl, rfl, rfl, rfl⟩
  · have heq : detect_arp w now true spa sha dst ts =
        ((ts ++ [(now, strOrEmpty spa, strOrEmpty sha)]).dropWhile
            (fun e => decide ((w : ℚ) < now - e.1)), none) := by
      unfold detect_arp
      rw [if_neg (by decide : ¬((!true : Bool) = true)),
        if_pos (by simp [hip, hmac] : (truthyStr spa && truthyStr sha) = true)]
      dsimp only
      rw [if_neg hm]
    refine ⟨by rw [heq], ?_, ?_⟩
    · rw [heq]
      simpa using hm
    · intro det hdet
      rw [heq] at hdet
      exact absurd hdet (by simp)

/-- Witness for C6 at a concrete ARP event with two MACs for one IP. -/
theorem arp_multimac_spec_witness :
    truthyStr (some "1.2.3.4") = true ∧
    (detect_arp 10 (2 : ℚ) true (some "1.2.3.4") (some "aa") none
        [((1 : ℚ), "1.2.3.4", "bb")]).1 =
      ([((1 : ℚ), "1.2.3.4", "bb")] ++ [((2 : ℚ), strOrEmpty (some "1.2.3.4"),
          strOrEmpty (some "aa"))]).dropWhile
        (fun e => decide (((10 : ℤ) : ℚ) < (2 : ℚ) - e.1)) :=
  ⟨by decide,
    (arp_multimac_spec 10 2 (some "1.2.3.4") (some "aa") none
      [((1 : ℚ), "1.2.3.4", "bb")] (by decide) (by decide)).1⟩

/-! ## Claim C7 -/

/-- C7: on each DNS event with a non-empty query name (the first truthy of
`qry_name` and `qry_name_raw`), the detector emits a `DNS_SUSPICIOUS`
detection iff some label (splitting the name on `.` and discarding empty
labels) is longer than `dns_label_max`, or the total name length exceeds
`dns_name_max`, or the Shannon entropy `_entropy` of the full name string
is at least `dns_entropy_threshold`; the emitted metadata records the name,
the two boolean flags, and the entropy rounded to 2 decimals. -/
theorem dns_suspicious_spec (lm nm : ℤ) (thr : ℝ) (qn qnr src dst : Option String)
    (h : truthyStr (if truthyStr qn then qn else qnr) = true) :
    ((detect_dns lm nm thr true qn qnr src dst).isSome = true ↔
      ((((strOrEmpty (if truthyStr qn then qn else qnr)).splitOn ".").filter
            (fun l => decide (l ≠ ""))).any
            (fun l => decide (lm < (l.length : ℤ))) = true ∨
        decide (nm < ((strOrEmpty (if truthyStr qn then qn else qnr)).length : ℤ)) = true ∨
        thr ≤ _entropy (strOrEmpty (if truthyStr qn then qn else qnr)))) ∧
    (∀ det, detect_dns lm nm thr true qn qnr src dst = some det →
        det.name = strOrEmpty (if truthyStr qn then qn else qnr) ∧
        det.longLabel = (((strOrEmpty (if truthyStr qn then qn else qnr)).splitOn ".").filter
            (fun l => decide (l ≠ ""))).any
            (fun l => decide (lm < (l.length : ℤ))) ∧
        det.tooLong = decide (nm < ((strOrEmpty (if truthyStr qn then qn else qnr)).length : ℤ)) ∧
        det.entropy = roundTo2 (_entropy (strOrEmpty (if truthyStr qn then qn else qnr))) ∧
        det.ruleId = "DNS_SUSPICIOUS" ∧ det.severity = "medium") := by
  unfold detect_dns
  rw [if_neg (by decide : ¬((!true : Bool) = true))]
  dsimp only
  rw [if_pos h]
  by_cases hemit :
      ((((strOrEmpty (if truthyStr qn then qn else qnr)).splitOn ".").filter
          (fun l => decide (l ≠ ""))).any
          (fun l => decide (lm < (l.length : ℤ))) = true ∨
        decide (nm < ((strOrEmpty (if truthyStr qn then qn else qnr)).length : ℤ)) = true ∨
        thr ≤ _entropy (strOrEmpty (if truthyStr qn then qn else qnr)))
  · rw [if_pos hemit]
    constructor
    · simp only [Option.isSome_some, true_iff]
      exact hemit
    · intro det hdet
      simp only [Option.some.injEq] at hdet
      subst hdet
      exact ⟨rfl, rfl, rfl, rfl, rfl, rfl⟩
  · rw [if_neg hemit]
    constructor
    · simp only [Option.isSome_none, Bool.false_eq_true, false_iff]
      exact hemit
    · intro det hdet
      exact absurd hdet (by simp)

/-- Witness for C7 at a concrete query name. -/
theorem dns_suspicious_spec_witness :
    truthyStr (if truthyStr (some "abc.example.com") then some "abc.example.com"
      else none) = true ∧
    (∀ det, detect_dns 20 50 (3.5 : ℝ) true (some "abc.example.com") none none none =
        some det →
      det.name = strOrEmpty (if truthyStr (some "abc.example.com")
          then some "abc.example.com" else none) ∧
      det.longLabel = (((strOrEmpty (if truthyStr (some "abc.example.com")
            then some "abc.example.com" else none)).splitOn ".").filter
          (fun l => decide (l ≠ ""))).any
          (fun l => decide ((20 : ℤ) < (l.length : ℤ))) ∧
      det.tooLong = decide ((50 : ℤ) < ((strOrEmpty (if truthyStr (some "abc.example.com")
          then some "abc.example.com" else none)).length : ℤ)) ∧
      det.entropy = roundTo2 (_entropy (strOrEmpty (if truthyStr (some "abc.example.com")
          then some "abc.example.com" else none))) ∧
      det.ruleId = "DNS_SUSPICIOUS" ∧ det.severity = "medium") :=
  ⟨by decide,
    (dns_suspicious_spec 20 50 (3.5 : ℝ) (some "abc.example.com") none none none
      (by decide)).2⟩

/-! ## Claim C8 -/

/-- C8: for both the ARP window and the ICMP window, after each eviction
pass every remaining entry satisfies `now - entry.timestamp ≤ horizon`
(`arp_window_sec` for ARP, 1.0 s for ICMP), and eviction removes entries
only from the front: the post-state window is a suffix of the appended
window.  The hypotheses say the pre-state windows carry timestamps in
non-decreasing order, all at most `now` — which holds along any run because
entries are stamped with the current wall clock as they are appended. -/
theorem window_eviction_invariant (w th : ℤ) (now : ℚ)
    (spa sha dst src icmpDst : Option String)
    (ts : List (ℚ × String × String)) (st : IcmpState)
    (hts : List.Pairwise (fun a b => a.1 ≤ b.1) ts)
    (htsb : ∀ e ∈ ts, e.1 ≤ now)
    (hw : List.Pairwise (fun a b => a.1 ≤ b.1) st.window)
    (hwb : ∀ e ∈ st.window, e.1 ≤ now) :
    (truthyStr spa = true → truthyStr sha = true →
      (∀ e ∈ (detect_arp w now true spa sha dst ts).1, now - e.1 ≤ (w : ℚ)) ∧
      (detect_arp w now true spa sha dst ts).1 <:+
        (ts ++ [(now, strOrEmpty spa, strOrEmpty sha)])) ∧
    ((∀ e ∈ (detect_icmp th now true src icmpDst st).1.window, now - e.1 ≤ 1) ∧
      (detect_icmp th now true src icmpDst st).1.window <:+
        (st.window ++ [(now, src)])) := by
  constructor
  · intro hip hmac
    rw [detect_arp_state w now spa sha dst ts hip hmac]
    constructor
    · exact dropWhile_age_bound (w : ℚ) now _
        (pairwise_append_now now (strOrEmpty spa, strOrEmpty sha) ts hts htsb)
    · exact List.dropWhile_suffix _
  · rw [detect_icmp_window th now src icmpDst st]
    constructor
    · exact dropWhile_age_bound 1 now _ (pairwise_append_now now src st.window hw hwb)
    · exact List.dropWhile_suffix _

/-- Witness for C8 at concrete windows and a concrete event time. -/
theorem window_eviction_invariant_witness :
    List.Pairwise (fun a b : ℚ × String × String => a.1 ≤ b.1) [(1, "i", "m")] ∧
    (∀ e ∈ (detect_icmp 0 2 true (some "s") none
        ⟨[((1 : ℚ), some "s")], []⟩).1.window, (2 : ℚ) - e.1 ≤ 1) :=
  ⟨by decide,
    ((window_eviction_invariant 10 0 2 (some "i") (some "m") none (some "s") none
      [(1, "i", "m")] ⟨[((1 : ℚ), some "s")], []⟩ (by decide) (by decide)
      (by decide) (by decide)).2).1⟩

/-! ## Correlator grouping lemmas -/

/-- Lookup after a `defaultdict(list)` append. -/
lemma dictFind_dictAppend {K : Type} [DecidableEq K] (k k' : K) (v : ℚ) :
    ∀ d : List (K × List ℚ),
      dictFind k (dictAppend k' v d) =
        if k' = k then some ((dictFind k d).getD [] ++ [v]) else dictFind k d := by
  intro d
  induction d with
  | nil => by_cases h : k' = k <;> simp [dictAppend, dictFind, h]
  | cons p rest ih =>
      obtain ⟨a, vs⟩ := p
      by_cases hak' : a = k'
      · subst hak'
        by_cases hak : a = k
        · subst hak
          simp [dictAppend, dictFind]
        · simp [dictAppend, dictFind, hak]
      · by_cases hak : a = k
        · subst hak
          have hk'a : k' ≠ a := fun h => hak' h.symm
          simp [dictAppend, dictFind, hak', hk'a]
        · simp [dictAppend, dictFind, hak', hak, ih]

/-- Appending to a key leaves the key list unchanged when the key is
present and appends the key otherwise. -/
lemma keys_dictAppend {K : Type} [DecidableEq K] (k : K) (v : ℚ) :
    ∀ d : List (K × List ℚ),
      (dictAppend k v d).map Prod.fst =
        if k ∈ d.map Prod.fst then d.map Prod.fst else d.map Prod.fst ++ [k] := by
  intro d
  induction d with
  | nil => simp [dictAppend]
  | cons p rest ih =>
      obtain ⟨a, vs⟩ := p
      by_cases hak : a = k
      · subst hak
        simp [dictAppend]
      · have hka : k ≠ a := fun h => hak h.symm
        simp only [dictAppend, if_neg hak, List.map_cons, ih, List.mem_cons]
        by_cases hmem : k ∈ rest.map Prod.fst
        · rw [if_pos hmem, if_pos (Or.inr hmem)]
        · rw [if_neg hmem, if_neg (by
            rintro (h | h)
            · exact hka h
            · exact hmem h)]
          simp

/-- A `defaultdict(list)` append preserves key distinctness. -/
lemma keys_nodup_dictAppend {K : Type} [DecidableEq K] (k : K) (v : ℚ)
    (d : List (K × List ℚ)) (hnd : (d.map Prod.fst).Nodup) :
    ((dictAppend k v d).map Prod.fst).Nodup := by
  rw [keys_dictAppend]
  split
  · exact hnd
  · next h => simp [List.nodup_append, hnd, h]

/-- The grouping pass of `correlate` produces distinct keys. -/
lemma groupTimes_keys_nodup (f : DetRecord → String) (evs : List DetRecord) :
    ((groupTimes f evs).map Prod.fst).Nodup := by
  have h : ∀ (l : List DetRecord) (d : List (String × List ℚ)),
      (d.map Prod.fst).Nodup →
      ((l.foldl (fun d e => dictAppend (f e) e.t d) d).map Prod.fst).Nodup := by
    intro l
    induction l with
    | nil => intro d hd; simpa using hd
    | cons e l ih => intro d hd; exact ih _ (keys_nodup_dictAppend (f e) e.t d hd)
  exact h evs [] (by simp)

/-- How an optional grouped list grows when further times are appended. -/
def optAppend (o : Option (List ℚ)) (l : List ℚ) : Option (List ℚ) :=
  match o with
  | some ts => some (ts ++ l)
  | none => if l = [] then none else some l

lemma optAppend_nil (o : Option (List ℚ)) : optAppend o [] = o := by
  cases o <;> simp [optAppend]

/-- The grouped value of a key is the key's filtered timestamps in history
order. -/
lemma foldl_dictFind (f : DetRecord → String) (k : String) :
    ∀ (l : List DetRecord) (d : List (String × List ℚ)),
      dictFind k (l.foldl (fun d e => dictAppend (f e) e.t d) d) =
        optAppend (dictFind k d)
          ((l.filter (fun e => decide (f e = k))).map (fun e => e.t)) := by
  intro l
  induction l with
  | nil => intro d; simp [optAppend_nil]
  | cons e l ih =>
      intro d
      by_cases hfe : f e = k
      · have hstep : dictFind k (dictAppend (f e) e.t d) =
            some ((dictFind k d).getD [] ++ [e.t]) := by
          rw [dictFind_dictAppend, if_pos hfe]
        calc dictFind k ((e :: l).foldl (fun d e => dictAppend (f e) e.t d) d)
            = optAppend (dictFind k (dictAppend (f e) e.t d))
              ((l.filter (fun e => decide (f e = k))).map (fun e => e.t)) := ih _
          _ = _ := by
              rw [hstep, List.filter_cons_of_pos (by simp [hfe]), List.map_cons]
              cases hfd : dictFind k d <;> simp [optAppend]
      · calc dictFind k ((e :: l).foldl (fun d e => dictAppend (f e) e.t d) d)
            = optAppend (dictFind k (dictAppend (f e) e.t d))
              ((l.filter (fun e => decide (f e = k))).map (fun e => e.t)) := ih _
          _ = _ := by
              rw [dictFind_dictAppend, if_neg hfe,
                List.filter_cons_of_neg (by simp [hfe])]

/-- Grouped lookup over the whole history. -/
lemma groupTimes_find (f : DetRecord → String) (k : String) (evs : List DetRecord) :
    dictFind k (groupTimes f evs) =
      if (evs.filter (fun e => decide (f e = k))).map (fun e => e.t) = [] then none
      else some ((evs.filter (fun e => decide (f e = k))).map (fun e => e.t)) := by
  rw [groupTimes, foldl_dictFind]
  simp [dictFind, optAppend]

/-! ## Claim C5 -/

/-- Repetition alerts for a rule absent from the grouped keys do not occur. -/
lemma repeat_filter_absent :
    ∀ (d : List (String × List ℚ)) (r : String), r ∉ d.map Prod.fst →
      ((d.filterMap (fun p =>
          if 50 ≤ p.2.length then some (mkRepeatAlert p.1 p.2.length) else none)).filter
        (fun a => decide (a.entities = [("rule_id", r)]))) = [] := by
  intro d
  induction d with
  | nil => intro r _; rfl
  | cons p rest ih =>
      intro r hr
      obtain ⟨k, ts⟩ := p
      simp only [List.map_cons, List.mem_cons, not_or] at hr
      have hkr : ¬(k = r) := fun h => hr.1 h.symm
      by_cases h50 : 50 ≤ ts.length
      · have hcons : List.filterMap (fun p : String × List ℚ =>
            if 50 ≤ p.2.length then some (mkRepeatAlert p.1 p.2.length) else none)
              ((k, ts) :: rest) =
            mkRepeatAlert k ts.length :: List.filterMap (fun p : String × List ℚ =>
              if 50 ≤ p.2.length then some (mkRepeatAlert p.1 p.2.length) else none)
              rest := by
          simp [List.filterMap_cons, h50]
        rw [hcons, List.filter_cons_of_neg (by simp [mkRepeatAlert, hkr])]
        exact ih r hr.2
      · have hcons : List.filterMap (fun p : String × List ℚ =>
            if 50 ≤ p.2.length then some (mkRepeatAlert p.1 p.2.length) else none)
              ((k, ts) :: rest) =
            List.filterMap (fun p : String × List ℚ =>
              if 50 ≤ p.2.length then some (mkRepeatAlert p.1 p.2.length) else none)
              rest := by
          simp [List.filterMap_cons, h50]
        rw [hcons]
        exact ih r hr.2

/-- Under distinct keys, the repetition pass contributes for rule `r`
exactly what the rule's grouped entry dictates. -/
lemma repeat_filter_characterize :
    ∀ (d : List (String × List ℚ)), ((d.map Prod.fst).Nodup) → ∀ r,
      ((d.filterMap (fun p =>
          if 50 ≤ p.2.length then some (mkRepeatAlert p.1 p.2.length) else none)).filter
        (fun a => decide (a.entities = [("rule_id", r)]))) =
      (match dictFind r d with
       | none => []
       | some ts => if 50 ≤ ts.length then [mkRepeatAlert r ts.length] else []) := by
  intro d
  induction d with
  | nil => intro _ r; rfl
  | cons p rest ih =>
      intro hnd r
      obtain ⟨k, ts⟩ := p
      rw [List.map_cons, List.nodup_cons] at hnd
      by_cases hkr : k = r
      · subst hkr
        have hfind : dictFind k ((k, ts) :: rest) = some ts := by
          simp [dictFind]
        rw [hfind]
        show _ = if 50 ≤ ts.length then [mkRepeatAlert k ts.length] else []
        by_cases h50 : 50 ≤ ts.length
        · have hcons : List.filterMap (fun p : String × List ℚ =>
              if 50 ≤ p.2.length then some (mkRepeatAlert p.1 p.2.length) else none)
                ((k, ts) :: rest) =
              mkRepeatAlert k ts.length :: List.filterMap (fun p : String × List ℚ =>
                if 50 ≤ p.2.length then some (mkRepeatAlert p.1 p.2.length) else none)
                rest := by
            simp [List.filterMap_cons, h50]
          rw [hcons, List.filter_cons_of_pos (by simp [mkRepeatAlert]),
            repeat_filter_absent rest k hnd.1, if_pos h50]
        · have hcons : List.filterMap (fun p : String × List ℚ =>
              if 50 ≤ p.2.length then some (mkRepeatAlert p.1 p.2.length) else none)
                ((k, ts) :: rest) =
              List.filterMap (fun p : String × List ℚ =>
                if 50 ≤ p.2.length then some (mkRepeatAlert p.1 p.2.length) else none)
                rest := by
            simp [List.filterMap_cons, h50]
          rw [hcons, repeat_filter_absent rest k hnd.1, if_neg h50]
      · have hfind : dictFind r ((k, ts) :: rest) = dictFind r rest := by
          simp [dictFind, hkr]
        rw [hfind]
        by_cases h50 : 50 ≤ ts.length
        · have hcons : List.filterMap (fun p : String × List ℚ =>
              if 50 ≤ p.2.length then some (mkRepeatAlert p.1 p.2.length) else none)
                ((k, ts) :: rest) =
              mkRepeatAlert k ts.length :: List.filterMap (fun p : String × List ℚ =>
                if 50 ≤ p.2.length then some (mkRepeatAlert p.1 p.2.length) else none)
                rest := by
            simp [List.filterMap_cons, h50]
          rw [hcons, List.filter_cons_of_neg (by simp [mkRepeatAlert, hkr])]
          exact ih hnd.2 r
        · have hcons : List.filterMap (fun p : String × List ℚ =>
              if 50 ≤ p.2.length then some (mkRepeatAlert p.1 p.2.length) else none)
                ((k, ts) :: rest) =
              List.filterMap (fun p : String × List ℚ =>
                if 50 ≤ p.2.length then some (mkRepeatAlert p.1 p.2.length) else none)
                rest := by
            simp [List.filterMap_cons, h50]
          rw [hcons]
          exact ih hnd.2 r

/-- C5: for every detection history and every rule id `r`, the correlator's
repetition pass emits exactly one `ALERT_REPEATED_RULE` (severity `medium`,
entities `{rule_id: r}`, `evidence_count` = total count) iff the total
occurrence count of `r` across the entire history is at least 50, and no
such alert otherwise; the count is over the whole history, not a time
window. -/
theorem repeated_rule_alert_spec (evs : List DetRecord) (r : String) :
    (correlateRepeat evs).filter (fun a => decide (a.entities = [("rule_id", r)])) =
      if 50 ≤ (evs.filter (fun e => decide (e.ruleId = r))).length then
        [mkRepeatAlert r (evs.filter (fun e => decide (e.ruleId = r))).length]
      else [] := by
  rw [correlateRepeat,
    repeat_filter_characterize _ (groupTimes_keys_nodup _ _) r,
    groupTimes_find]
  by_cases hnil :
      ((evs.filter (fun e => decide (e.ruleId = r))).map (fun e => e.t)) = []
  · rw [if_pos hnil]
    have hlen : (evs.filter (fun e => decide (e.ruleId = r))).length = 0 := by
      have := congrArg List.length hnil
      simpa using this
    rw [hlen]
    norm_num
  · rw [if_neg hnil]
    have hlen : ((evs.filter (fun e => decide (e.ruleId = r))).map (fun e => e.t)).length =
        (evs.filter (fun e => decide (e.ruleId = r))).length := List.length_map _ _
    show (if 50 ≤ ((evs.filter (fun e => decide (e.ruleId = r))).map (fun e => e.t)).length
        then [mkRepeatAlert r ((evs.filter (fun e => decide (e.ruleId = r))).map
          (fun e => e.t)).length] else []) = _
    rw [hlen]

/-! ## Claims C4 and C10 -/

/-- Burst alerts for a source absent from the grouped keys do not occur. -/
lemma burst_filter_absent :
    ∀ (d : List (String × List ℚ)) (s : String), s ∉ d.map Prod.fst →
      ((d.filterMap (fun p =>
          (burstScan (sortQ p.2)).map (fun n => mkBurstAlert p.1 n))).filter
        (fun a => decide (a.entities = [("src", s)]))) = [] := by
  intro d
  induction d with
  | nil => intro s _; rfl
  | cons p rest ih =>
      intro s hs
      obtain ⟨k, ts⟩ := p
      simp only [List.map_cons, List.mem_cons, not_or] at hs
      have hks : ¬(k = s) := fun h => hs.1 h.symm
      cases hB : burstScan (sortQ ts) with
      | none =>
          have hcons : List.filterMap (fun p : String × List ℚ =>
              (burstScan (sortQ p.2)).map (fun n => mkBurstAlert p.1 n))
                ((k, ts) :: rest) =
              List.filterMap (fun p : String × List ℚ =>
                (burstScan (sortQ p.2)).map (fun n => mkBurstAlert p.1 n)) rest := by
            simp [List.filterMap_cons, hB]
          rw [hcons]
          exact ih s hs.2
      | some n =>
          have hcons : List.filterMap (fun p : String × List ℚ =>
              (burstScan (sortQ p.2)).map (fun n => mkBurstAlert p.1 n))
                ((k, ts) :: rest) =
              mkBurstAlert k n :: List.filterMap (fun p : String × List ℚ =>
                (burstScan (sortQ p.2)).map (fun n => mkBurstAlert p.1 n)) rest := by
            simp [List.filterMap_cons, hB]
          rw [hcons, List.filter_cons_of_neg (by simp [mkBurstAlert, hks])]
          exact ih s hs.2

/-- Under distinct keys, at most one burst alert mentions a given source. -/
lemma burst_filter_le_one :
    ∀ (d : List (String × List ℚ)), ((d.map Prod.fst).Nodup) → ∀ s,
      ((d.filterMap (fun p =>
          (burstScan (sortQ p.2)).map (fun n => mkBurstAlert p.1 n))).filter
        (fun a => decide (a.entities = [("src", s)]))).length ≤ 1 := by
  intro d
  induction d with
  | nil => intro _ s; simp
  | cons p rest ih =>
      intro hnd s
      obtain ⟨k, ts⟩ := p
      rw [List.map_cons, List.nodup_cons] at hnd
      cases hB : burstScan (sortQ ts) with
      | none =>
          have hcons : List.filterMap (fun p : String × List ℚ =>
              (burstScan (sortQ p.2)).map (fun n => mkBurstAlert p.1 n))
                ((k, ts) :: rest) =
              List.filterMap (fun p : String × List ℚ =>
                (burstScan (sortQ p.2)).map (fun n => mkBurstAlert p.1 n)) rest := by
            simp [List.filterMap_cons, hB]
          rw [hcons]
          exact ih hnd.2 s
      | some n =>
          have hcons : List.filterMap (fun p : String × List ℚ =>
              (burstScan (sortQ p.2)).map (fun n => mkBurstAlert p.1 n))
                ((k, ts) :: rest) =
              mkBurstAlert k n :: List.filterMap (fun p : String × List ℚ =>
                (burstScan (sortQ p.2)).map (fun n => mkBurstAlert p.1 n)) rest := by
            simp [List.filterMap_cons, hB]
          rw [hcons]
          by_cases hks : k = s
          · subst hks
            rw [List.filter_cons_of_pos (by simp [mkBurstAlert]),
              burst_filter_absent rest k hnd.1]
            simp
          · rw [List.filter_cons_of_neg (by simp [mkBurstAlert, hks])]
            exact ih hnd.2 s

/-- The `while` loop of the burst rule never moves `i` backwards. -/
lemma advanceI_ge (times : List ℚ) (j : ℕ) :
    ∀ (fuel i : ℕ), i ≤ advanceI times j fuel i := by
  intro fuel
  induction fuel with
  | zero => intro i; exact le_refl i
  | succ fuel ih =>
      intro i
      simp only [advanceI]
      split
      · exact le_trans (Nat.le_succ i) (ih (i + 1))
      · exact le_refl i

/-- The `while` loop of the burst rule never moves `i` past `j`. -/
lemma advanceI_le (times : List ℚ) (j : ℕ) :
    ∀ (fuel i : ℕ), i ≤ j → advanceI times j fuel i ≤ j := by
  intro fuel
  induction fuel with
  | zero => intro i hij; exact hij
  | succ fuel ih =>
      intro i hij
      simp only [advanceI]
      split
      · next hcond => exact ih (i + 1) hcond.1
      · exact hij

/-- The scan grows the window by at most one element per step, so the first
window whose size reaches 30 has size exactly 30. -/
lemma burstLoop_some_eq_30 (times : List ℚ) :
    ∀ (fuel i j n : ℕ), i ≤ j → j ≤ i + 29 →
      burstLoop times fuel i j = some n → n = 30 := by
  intro fuel
  induction fuel with
  | zero => intro i j n _ _ h; exact absurd h (by simp [burstLoop])
  | succ fuel ih =>
      intro i j n hij hj29 h
      simp only [burstLoop] at h
      by_cases hlen : j < times.length
      · rw [if_pos hlen] at h
        have hge : i ≤ advanceI times j j i := advanceI_ge times j j i
        have hle : advanceI times j j i ≤ j := advanceI_le times j j i hij
        by_cases hemit : 30 ≤ j - advanceI times j j i + 1
        · rw [if_pos hemit] at h
          have hn : j - advanceI times j j i + 1 = n := by
            simpa using h
          omega
        · rw [if_neg hemit] at h
          exact ih (advanceI times j j i) (j + 1) n (by omega) (by omega) h
      · rw [if_neg hlen] at h
        exact absurd h (by simp)

/-- The per-source burst scan only ever reports a window of size exactly 30. -/
lemma burstScan_eq_30 (times : List ℚ) (n : ℕ) (h : burstScan times = some n) :
    n = 30 :=
  burstLoop_some_eq_30 times times.length 0 0 n (le_refl 0) (by omega) h

/-- C10: whenever the correlator's burst rule emits an `ALERT_ICMP_FLOOD`
alert, its `evidence_count` equals exactly 30: the scan enlarges the window
by at most one entry per `j` step and stops at the first window whose size
reaches 30, so the reported size can never exceed 30. -/
theorem burst_alert_evidence_is_30 :
    ∀ (evs : List DetRecord) (a : Alert), a ∈ correlateBurst evs →
      a.evidenceCount = 30 := by
  intro evs a ha
  rw [correlateBurst, List.mem_filterMap] at ha
  obtain ⟨p, hp, hmap⟩ := ha
  rw [Option.map_eq_some'] at hmap
  obtain ⟨n, hscan, hmk⟩ := hmap
  subst hmk
  simp [mkBurstAlert, burstScan_eq_30 _ n hscan]

set_option maxHeartbeats 1000000 in
/-- Witness for C10 at a concrete 30-detection single-source history. -/
theorem burst_alert_evidence_is_30_witness :
    mkBurstAlert "s" 30 ∈
      correlateBurst (List.replicate 30 ⟨"s", "ICMP_RATE", 0⟩) ∧
    (mkBurstAlert "s" 30).evidenceCount = 30 := by
  have h1 : groupTimes (fun e => e.src) (List.replicate 30 ⟨"s", "ICMP_RATE", 0⟩) =
      [("s", [0, 0, 0, 0, 0, 0, 0, 0, 0, 0, 0, 0, 0, 0, 0, 0, 0, 0, 0, 0, 0, 0,
        0, 0, 0, 0, 0, 0, 0, 0])] := by
    norm_num [groupTimes, dictAppend, List.replicate]
  have h2 : sortQ [0, 0, 0, 0, 0, 0, 0, 0, 0, 0, 0, 0, 0, 0, 0, 0, 0, 0, 0, 0,
      0, 0, 0, 0, 0, 0, 0, 0, 0, 0] =
      [0, 0, 0, 0, 0, 0, 0, 0, 0, 0, 0, 0, 0, 0, 0, 0, 0, 0, 0, 0, 0, 0, 0, 0,
        0, 0, 0, 0, 0, 0] := by
    norm_num [sortQ, List.insertionSort, List.orderedInsert]
  have h3 : burstScan [0, 0, 0, 0, 0, 0, 0, 0, 0, 0, 0, 0, 0, 0, 0, 0, 0, 0, 0,
      0, 0, 0, 0, 0, 0, 0, 0, 0, 0, 0] = some 30 := by
    norm_num [burstScan, burstLoop, advanceI]
  have hc : correlateBurst (List.replicate 30 ⟨"s", "ICMP_RATE", 0⟩) =
      [mkBurstAlert "s" 30] := by
    rw [correlateBurst, h1]
    simp [List.filterMap_cons, h2, h3]
  have hmem : mkBurstAlert "s" 30 ∈
      correlateBurst (List.replicate 30 ⟨"s", "ICMP_RATE", 0⟩) := by
    rw [hc]
    exact List.mem_singleton.mpr rfl
  exact ⟨hmem, burst_alert_evidence_is_30 _ _ hmem⟩

set_option maxHeartbeats 1000000 in
/-- C4: the correlator's burst rule proceeds per distinct source over the
source's sorted timestamps with the two-pointer scan (`advanceI`,
`burstLoop`), emits at most one `ALERT_ICMP_FLOOD` alert (severity `high`,
entities `{src}`, `evidence_count` = window size) per source per run, and on
the spec's synthetic histories: exactly 30 same-source detections spaced
1 second apart yield exactly one alert with `evidence_count` 30, while 29
yield none. -/
theorem burst_alert_spec :
    (∀ (evs : List DetRecord) (s : String),
        ((correlateBurst evs).filter
          (fun a => decide (a.entities = [("src", s)]))).length ≤ 1) ∧
    (∀ (evs : List DetRecord) (a : Alert), a ∈ correlateBurst evs →
        a.alertId = "ALERT_ICMP_FLOOD" ∧ a.severity = "high") ∧
    correlateBurst ((List.range 30).map
        (fun k => ⟨"10.0.0.1", "ICMP_RATE", (k : ℚ)⟩)) =
      [mkBurstAlert "10.0.0.1" 30] ∧
    correlateBurst ((List.range 29).map
        (fun k => ⟨"10.0.0.1", "ICMP_RATE", (k : ℚ)⟩)) = [] := by
  refine ⟨?_, ?_, ?_, ?_⟩
  · intro evs s
    rw [correlateBurst]
    exact burst_filter_le_one _ (groupTimes_keys_nodup _ _) s
  · intro evs a ha
    rw [correlateBurst, List.mem_filterMap] at ha
    obtain ⟨p, hp, hmap⟩ := ha
    rw [Option.map_eq_some'] at hmap
    obtain ⟨n, hscan, hmk⟩ := hmap
    subst hmk
    exact ⟨rfl, rfl⟩
  · have h1 : groupTimes (fun e => e.src) ((List.range 30).map
        (fun k => ⟨"10.0.0.1", "ICMP_RATE", (k : ℚ)⟩)) =
        [("10.0.0.1", [0, 1, 2, 3, 4, 5, 6, 7, 8, 9, 10, 11, 12, 13, 14, 15, 16,
          17, 18, 19, 20, 21, 22, 23, 24, 25, 26, 27, 28, 29])] := by
      norm_num [groupTimes, dictAppend, List.range_succ]
    have h2 : sortQ [0, 1, 2, 3, 4, 5, 6, 7, 8, 9, 10, 11, 12, 13, 14, 15, 16,
        17, 18, 19, 20, 21, 22, 23, 24, 25, 26, 27, 28, 29] =
        [0, 1, 2, 3, 4, 5, 6, 7, 8, 9, 10, 11, 12, 13, 14, 15, 16, 17, 18, 19,
          20, 21, 22, 23, 24, 25, 26, 27, 28, 29] := by
      norm_num [sortQ, List.insertionSort, List.orderedInsert]
    have h3 : burstScan [0, 1, 2, 3, 4, 5, 6, 7, 8, 9, 10, 11, 12, 13, 14, 15,
        16, 17, 18, 19, 20, 21, 22, 23, 24, 25, 26, 27, 28, 29] = some 30 := by
      norm_num [burstScan, burstLoop, advanceI]
    rw [correlateBurst, h1]
    simp [List.filterMap_cons, h2, h3]
  · have h1 : groupTimes (fun e => e.src) ((List.range 29).map
        (fun k => ⟨"10.0.0.1", "ICMP_RATE", (k : ℚ)⟩)) =
        [("10.0.0.1", [0, 1, 2, 3, 4, 5, 6, 7, 8, 9, 10, 11, 12, 13, 14, 15, 16,
          17, 18, 19, 20, 21, 22, 23, 24, 25, 26, 27, 28])] := by
      norm_num [groupTimes, dictAppend, List.range_succ]
    have h2 : sortQ [0, 1, 2, 3, 4, 5, 6, 7, 8, 9, 10, 11, 12, 13, 14, 15, 16,
        17, 18, 19, 20, 21, 22, 23, 24, 25, 26, 27, 28] =
        [0, 1, 2, 3, 4, 5, 6, 7, 8, 9, 10, 11, 12, 13, 14, 15, 16, 17, 18, 19,
          20, 21, 22, 23, 24, 25, 26, 27, 28] := by
      norm_num [sortQ, List.insertionSort, List.orderedInsert]
    have h3 : burstScan [0, 1, 2, 3, 4, 5, 6, 7, 8, 9, 10, 11, 12, 13, 14, 15,
        16, 17, 18, 19, 20, 21, 22, 23, 24, 25, 26, 27, 28] = none := by
      norm_num [burstScan, burstLoop, advanceI]
    rw [correlateBurst, h1]
    simp [List.filterMap_cons, h2, h3]

/-- Witness for C4's alert-shape conjunct at the emitted 30-burst alert. -/
theorem burst_alert_spec_witness :
    (mkBurstAlert "10.0.0.1" 30).alertId = "ALERT_ICMP_FLOOD" ∧
    (mkBurstAlert "10.0.0.1" 30).severity = "high" := by
  have hmem : mkBurstAlert "10.0.0.1" 30 ∈ correlateBurst ((List.range 30).map
      (fun k => ⟨"10.0.0.1", "ICMP_RATE", (k : ℚ)⟩)) := by
    rw [burst_alert_spec.2.2.1]
    exact List.mem_singleton.mpr rfl
  exact burst_alert_spec.2.1 _ _ hmem

end IdsIps
